import Mathlib

/-
Verification of core/symbol_precision.py (gpt-tarding-bot).

Shallow embedding conventions:
 * Python / JSON numbers are embedded as exact rationals (ℚ).  The module under
   verification performs its arithmetic through Python's `decimal.Decimal`
   (context precision 28); we model the Decimal operations as exact rational
   arithmetic, with the one explicit rounding step of the source
   (`quantize(Decimal("1e-18"), rounding=ROUND_HALF_UP)`) modelled as exact
   half-up rounding at 18 decimal places.  Binary floating-point representation
   error and the 28-significant-digit context limit are not modelled; float
   infinities/NaN are outside the ℚ embedding.
 * The loaded metadata table (`self.data`, the result of `json.load`) is an
   arbitrary JSON value, embedded as `JVal`.
 * Exceptions: the only exception that can escape a public operation is the
   AttributeError raised by `self.data.get(...)` when the loaded table is not a
   dict (`get_symbol_entry` has no try/except and is called outside the `try`
   of `get_step_size` / `get_tick_size` / `get_min_notional`).  Operations that
   can raise are embedded as `Except PyErr`; every internally-caught exception
   path is folded into a total function, mirroring each `try/except` of the
   source.
 * `Decimal.__floordiv__` (the `//` in `round_price` / `round_quantity_down`)
   is the decimal divide-integer operation, which truncates toward zero; it is
   modelled by `truncQ`, not by the mathematical floor.
 * Python `float(round(x, 8))` (fallback paths) rounds half-to-even; Python
   `math.floor(x * 1e8) / 1e8` is an exact floor at 8 decimal places.
-/

/-- Embedded JSON values, the possible results of `json.load`. -/
inductive JVal where
  | num (q : ℚ)
  | str (s : String)
  | bool (b : Bool)
  | null
  | obj (fields : List (String × JVal))
  | arr (elems : List JVal)

/-- Python exceptions relevant to the module.  Only `attributeError` can escape
to a caller (from `dict.get` attribute lookup on a non-dict table); the others
are always caught by a `try/except` in the source and appear only transiently
inside the embedding. -/
inductive PyErr where
  | attributeError
  | typeError
  | keyError
  deriving DecidableEq

/-- Default fallback step size (source: `DEFAULT_STEP_SIZE = 1e-8`). -/
def DEFAULT_STEP_SIZE : ℚ := 1 / 10 ^ 8

/-- Default fallback tick size (source: `DEFAULT_TICK_SIZE = 1e-8`). -/
def DEFAULT_TICK_SIZE : ℚ := 1 / 10 ^ 8

/-- Default fallback minimum notional (source: `DEFAULT_MIN_NOTIONAL = 1e-6`). -/
def DEFAULT_MIN_NOTIONAL : ℚ := 1 / 10 ^ 6

/-- Truncation toward zero, the rounding of decimal divide-integer
(`Decimal.__floordiv__` returns the truncated integer quotient). -/
def truncQ (x : ℚ) : ℤ := if 0 ≤ x then ⌊x⌋ else -⌊-x⌋

/-- Round a rational to an integer with ties going away from zero
(`decimal.ROUND_HALF_UP`). -/
def halfUpUnit (x : ℚ) : ℤ := if 0 ≤ x then ⌊x + 1 / 2⌋ else -⌊-x + 1 / 2⌋

/-- `Decimal.quantize(Decimal("1e-18"), rounding=ROUND_HALF_UP)`: half-up
rounding at 18 decimal places. -/
def quantize18 (x : ℚ) : ℚ := (halfUpUnit (x * 10 ^ 18) : ℚ) / 10 ^ 18

/-- `math.floor(x * 1e8) / 1e8`: the 8-decimal-place floor used by the
arithmetic-failure fallbacks of the source. -/
def floor8 (x : ℚ) : ℚ := (⌊x * 10 ^ 8⌋ : ℚ) / 10 ^ 8

/-- Round a rational to an integer with ties to even (Python `round`). -/
def halfEvenUnit (x : ℚ) : ℤ :=
  if x - ⌊x⌋ < 1 / 2 then ⌊x⌋
  else if 1 / 2 < x - ⌊x⌋ then ⌊x⌋ + 1
  else if ⌊x⌋ % 2 = 0 then ⌊x⌋ else ⌊x⌋ + 1

/-- Python `round(x, 8)`: half-even rounding at 8 decimal places (fallback of
`round_price` / `get_trimmed_price`). -/
def pyRound8 (x : ℚ) : ℚ := (halfEvenUnit (x * 10 ^ 8) : ℚ) / 10 ^ 8

/-- Python `10 ** n` for an integer exponent, as an exact rational. -/
def qpow10 (n : ℤ) : ℚ := if 0 ≤ n then (10 : ℚ) ^ n.toNat else 1 / (10 : ℚ) ^ (-n).toNat

/-- Digits-to-natural accumulator for numeric string parsing. -/
def digitsToNat (cs : List Char) : ℕ :=
  cs.foldl (fun a c => 10 * a + (c.toNat - 48)) 0

/-- Split an optional leading sign; returns (isNegative, rest). -/
def parseSign : List Char → Bool × List Char
  | '-' :: r => (true, r)
  | '+' :: r => (false, r)
  | r => (false, r)

/-- Parse an unsigned decimal mantissa: digits, optionally with a fractional
part, at least one digit overall (Python accepts "1.", ".5"). -/
def parseMantissa (cs : List Char) : Option ℚ :=
  match cs.dropWhile Char.isDigit with
  | [] => if cs.takeWhile Char.isDigit = [] then none
          else some (digitsToNat (cs.takeWhile Char.isDigit) : ℚ)
  | '.' :: frac =>
      if frac.all Char.isDigit ∧ (cs.takeWhile Char.isDigit ≠ [] ∨ frac ≠ []) then
        some ((digitsToNat (cs.takeWhile Char.isDigit) : ℚ) +
          (digitsToNat frac : ℚ) / 10 ^ frac.length)
      else none
  | _ => none

/-- Split a numeric literal at the first exponent marker, if any. -/
def splitOnExp (cs : List Char) : List Char × Option (List Char) :=
  match cs.dropWhile (fun c => !(c == 'e' || c == 'E')) with
  | [] => (cs.takeWhile (fun c => !(c == 'e' || c == 'E')), none)
  | _ :: rest => (cs.takeWhile (fun c => !(c == 'e' || c == 'E')), some rest)

/-- Python `float(s)` on a string: optional sign, decimal mantissa, optional
exponent.  (Finite values only; "inf"/"nan" are outside the ℚ embedding.) -/
def parseFloatStr (s : String) : Option ℚ :=
  match parseMantissa (splitOnExp (parseSign s.trim.data).2).1 with
  | none => none
  | some m =>
    match (splitOnExp (parseSign s.trim.data).2).2 with
    | none => some (if (parseSign s.trim.data).1 then -m else m)
    | some ecs =>
      if (parseSign ecs).2 ≠ [] ∧ (parseSign ecs).2.all Char.isDigit then
        some ((if (parseSign s.trim.data).1 then -m else m) *
          qpow10 (if (parseSign ecs).1 then -(digitsToNat (parseSign ecs).2 : ℤ)
                  else (digitsToNat (parseSign ecs).2 : ℤ)))
      else none

/-- Python `int(s)` on a string: optional sign, digits only. -/
def parseIntStr (s : String) : Option ℤ :=
  match s.trim.data with
  | [] => none
  | '-' :: ds => if ds ≠ [] ∧ ds.all Char.isDigit then some (-(digitsToNat ds : ℤ)) else none
  | '+' :: ds => if ds ≠ [] ∧ ds.all Char.isDigit then some (digitsToNat ds : ℤ) else none
  | ds => if ds.all Char.isDigit then some (digitsToNat ds : ℤ) else none

/-- Python `float(v)` on a JSON-derived value: `none` encodes a raised
TypeError/ValueError (always caught by the source's `try/except`). -/
def pyFloat : JVal → Option ℚ
  | .num q => some q
  | .bool b => some (if b then 1 else 0)
  | .str s => parseFloatStr s
  | _ => none

/-- Python `int(v)` on a JSON-derived value: truncates numeric values toward
zero; integer strings only; `none` encodes a raised exception. -/
def pyInt : JVal → Option ℤ
  | .num q => some (truncQ q)
  | .bool b => some (if b then 1 else 0)
  | .str s => parseIntStr s
  | _ => none

/-- Does the character list `needle` start `hay`? -/
def listStartsWith : List Char → List Char → Bool
  | _, [] => true
  | [], _ :: _ => false
  | a :: as, b :: bs => a = b && listStartsWith as bs

/-- Substring test for Python `k in s` on strings. -/
def containsSub : List Char → List Char → Bool
  | [], needle => needle.isEmpty
  | c :: rest, needle => listStartsWith (c :: rest) needle || containsSub rest needle

/-- Last-occurrence association lookup: `json.load` builds dicts where a
duplicated key keeps its last value, and `dict` lookup then finds that value. -/
def lookupLast (fs : List (String × JVal)) (k : String) : Option JVal :=
  match fs with
  | [] => none
  | kv :: rest =>
    match lookupLast rest k with
    | some w => some w
    | none => if kv.1 = k then some kv.2 else none

/-- Python `k in s` for a JSON-derived value `s` (dict key test, list
membership — a string compares equal only to an equal string —, substring test
on strings; TypeError on numbers/bools/None). -/
def containsKey (s : JVal) (k : String) : Except PyErr Bool :=
  match s with
  | .obj fields => .ok (fields.any (fun kv => kv.1 == k))
  | .arr elems => .ok (elems.any (fun v => match v with | .str t => t == k | _ => false))
  | .str t => .ok (containsSub t.data k.data)
  | _ => .error .typeError

/-- Python `s[k]` for a JSON-derived value `s` and string key `k`. -/
def getItem (s : JVal) (k : String) : Except PyErr JVal :=
  match s with
  | .obj fields =>
    match lookupLast fields k with
    | some v => .ok v
    | none => .error .keyError
  | _ => .error .typeError

/-- The alias loop `for k in keys: if k in s: return ... s[k] ...` of the
lookup methods: the value of the first present key, or `none` when no key is
present; an error from `in`/`[]` aborts the loop (it is caught by the
enclosing `try/except` of each lookup method). -/
def firstKeyVal (s : JVal) : List String → Except PyErr (Option JVal)
  | [] => .ok none
  | k :: rest =>
    match containsKey s k with
    | .error e => .error e
    | .ok true =>
      match getItem s k with
      | .error e => .error e
      | .ok v => .ok (some v)
    | .ok false => firstKeyVal s rest

/-- Body of `SymbolPrecision.get_step_size` after the entry lookup: the
`try/except` collapses every raised exception to `DEFAULT_STEP_SIZE`.
Source lines 71-86. -/
def stepFromEntry (s : JVal) : ℚ :=
  match firstKeyVal s ["stepSize", "lotSize", "quantity_step", "qty_step"] with
  | .error _ => DEFAULT_STEP_SIZE
  | .ok (some v) =>
    match pyFloat v with
    | some x => x
    | none => DEFAULT_STEP_SIZE
  | .ok none =>
    match firstKeyVal s ["quantityPrecision", "qtyPrecision"] with
    | .error _ => DEFAULT_STEP_SIZE
    | .ok (some v) =>
      match pyInt v with
      | some prec => qpow10 (-prec)
      | none => DEFAULT_STEP_SIZE
    | .ok none => DEFAULT_STEP_SIZE

/-- Body of `SymbolPrecision.get_tick_size` after the entry lookup.  Note that
the first alias loop already checks `pricePrecision` and returns its value
directly via `float(...)`; the second loop (the `10 ** -prec` conversion) is
reachable only when none of `tickSize`/`priceTick`/`pricePrecision` is present,
i.e. never, since it only re-checks `pricePrecision`.  Source lines 88-102. -/
def tickFromEntry (s : JVal) : ℚ :=
  match firstKeyVal s ["tickSize", "priceTick", "pricePrecision"] with
  | .error _ => DEFAULT_TICK_SIZE
  | .ok (some v) =>
    match pyFloat v with
    | some x => x
    | none => DEFAULT_TICK_SIZE
  | .ok none =>
    match firstKeyVal s ["pricePrecision"] with
    | .error _ => DEFAULT_TICK_SIZE
    | .ok (some v) =>
      match pyInt v with
      | some prec => qpow10 (-prec)
      | none => DEFAULT_TICK_SIZE
    | .ok none => DEFAULT_TICK_SIZE

/-- Body of `SymbolPrecision.get_min_notional` after the entry lookup.
Source lines 104-113. -/
def minNotionalFromEntry (s : JVal) : ℚ :=
  match firstKeyVal s ["minNotional", "min_notional"] with
  | .error _ => DEFAULT_MIN_NOTIONAL
  | .ok (some v) =>
    match pyFloat v with
    | some x => x
    | none => DEFAULT_MIN_NOTIONAL
  | .ok none => DEFAULT_MIN_NOTIONAL

/-- `SymbolPrecision.get_symbol_entry`: `self.data.get(symbol, {})`.  When the
loaded table is not a dict the attribute lookup `.get` raises AttributeError;
this method has no `try/except`, so the error propagates.  Source lines
68-69. -/
def get_symbol_entry (data : JVal) (symbol : String) : Except PyErr JVal :=
  match data with
  | .obj fields => .ok ((lookupLast fields symbol).getD (.obj []))
  | _ => .error .attributeError

/-- `SymbolPrecision.get_step_size` (the entry lookup sits outside the
`try`, so its AttributeError propagates). -/
def get_step_size (data : JVal) (symbol : String) : Except PyErr ℚ :=
  (get_symbol_entry data symbol).map stepFromEntry

/-- `SymbolPrecision.get_tick_size` (the entry lookup sits outside the
`try`, so its AttributeError propagates). -/
def get_tick_size (data : JVal) (symbol : String) : Except PyErr ℚ :=
  (get_symbol_entry data symbol).map tickFromEntry

/-- `SymbolPrecision.get_min_notional` (the entry lookup sits outside the
`try`, so its AttributeError propagates). -/
def get_min_notional (data : JVal) (symbol : String) : Except PyErr ℚ :=
  (get_symbol_entry data symbol).map minNotionalFromEntry

/-- `SymbolPrecision.round_price`, source lines 115-129: `(p // tick) * tick`
with decimal divide-integer (truncation toward zero); returns the price
unchanged when the tick is zero; the `except` branch (e.g. the AttributeError
of a non-dict table) falls back to `round(price, 8)`. -/
def round_price (data : JVal) (symbol : String) (price : ℚ) : ℚ :=
  match get_tick_size data symbol with
  | .error _ => pyRound8 price
  | .ok tick =>
    if tick = 0 then price
    else (truncQ (price / tick) : ℚ) * tick

/-- `SymbolPrecision.round_quantity_down`, source lines 131-150:
`(q // step) * step` (decimal divide-integer), clamped to 0 when negative;
returns the quantity unchanged when the step is zero; the `except` branch
falls back to `math.floor(qty * 1e8) / 1e8`. -/
def round_quantity_down (data : JVal) (symbol : String) (qty : ℚ) : ℚ :=
  match get_step_size data symbol with
  | .error _ => floor8 qty
  | .ok step =>
    if step = 0 then qty
    else if (truncQ (qty / step) : ℚ) * step < 0 then 0
    else (truncQ (qty / step) : ℚ) * step

/-- `SymbolPrecision.get_min_qty_by_min_notional`, source lines 152-174.
With a usable price: `(min_notional / price).quantize(1e-18, ROUND_HALF_UP)`,
clamped up to at least one step.  With no price (or price ≤ 0): one step.
Any escaping lookup error reaches the `except`, whose own
`float(self.get_step_size(symbol))` raises again, landing on
`DEFAULT_STEP_SIZE`. -/
def get_min_qty_by_min_notional (data : JVal) (symbol : String) (price : Option ℚ) : ℚ :=
  match get_min_notional data symbol with
  | .error _ => DEFAULT_STEP_SIZE
  | .ok min_notional =>
    match price with
    | none =>
      match get_step_size data symbol with
      | .error _ => DEFAULT_STEP_SIZE
      | .ok step => step
    | some p =>
      if p ≤ 0 then
        match get_step_size data symbol with
        | .error _ => DEFAULT_STEP_SIZE
        | .ok step => step
      else
        match get_step_size data symbol with
        | .error _ => DEFAULT_STEP_SIZE
        | .ok step =>
          if quantize18 (min_notional / p) < step then step
          else quantize18 (min_notional / p)

/-- Source lines 217-224: round the candidate back down to the step grid and
return it, or the raw step when that final value is ≤ 0. -/
def trimFinal (data : JVal) (symbol : String) (step candidate : ℚ) : ℚ :=
  if round_quantity_down data symbol candidate ≤ 0 then step
  else round_quantity_down data symbol candidate

/-- `SymbolPrecision.get_trimmed_quantity`, source lines 176-231.
Null/non-positive quantities yield 0; a step-floored quantity of at least
1e-12 is returned as-is; otherwise the minimum-viable-quantity branch runs:
the min-notional quantity, snapped up to the step grid (`math.ceil`), then
re-floored (`trimFinal`).  `math.ceil(min_qty / step)` with a zero step raises
ZeroDivisionError, and an AttributeError from `get_step_size` also escapes to
the outer `except`: both land on the `math.floor(qty * 1e8) / 1e8` fallback. -/
def get_trimmed_quantity (data : JVal) (symbol : String) (qty price : Option ℚ) : ℚ :=
  match qty with
  | none => 0
  | some qty_f =>
    if qty_f ≤ 0 then 0
    else if (1 : ℚ) / 10 ^ 12 ≤ round_quantity_down data symbol qty_f then
      round_quantity_down data symbol qty_f
    else
      match get_step_size data symbol with
      | .error _ => floor8 qty_f
      | .ok step =>
        if get_min_qty_by_min_notional data symbol price < step then
          trimFinal data symbol step step
        else if step = 0 then floor8 qty_f
        else
          trimFinal data symbol step
            ((⌈get_min_qty_by_min_notional data symbol price / step⌉ : ℚ) * step)

/-- `SymbolPrecision.get_trimmed_price`, source lines 233-243: 0 for a null
price, else `round_price` (which already absorbs every exception, so the outer
`except` of `get_trimmed_price` is unreachable). -/
def get_trimmed_price (data : JVal) (symbol : String) (price : Option ℚ) : ℚ :=
  match price with
  | none => 0
  | some p => round_price data symbol p

/-- A one-symbol metadata entry configuring `stepSize` and `minNotional`. -/
def stepEntry (step mn : ℚ) : JVal :=
  .obj [("stepSize", .num step), ("minNotional", .num mn)]

/-- A loaded table holding exactly one symbol with the given step size and
minimum notional. -/
def stepTable (sym : String) (step mn : ℚ) : JVal :=
  .obj [(sym, stepEntry step mn)]

/-- A one-symbol metadata entry configuring `tickSize`. -/
def tickEntry (tick : ℚ) : JVal := .obj [("tickSize", .num tick)]

/-- A loaded table holding exactly one symbol with the given tick size. -/
def tickTable (sym : String) (tick : ℚ) : JVal := .obj [(sym, tickEntry tick)]

/-- Modelled from the spec (claim C1 wording): the minimum-viable-quantity
formula — min_notional/price rounded half-up to 18 decimal places, clamped up
to at least one step, snapped up to the next multiple of the step, then
floor-normalized to the grid. -/
def specMinViableQty (step mn price : ℚ) : ℚ :=
  (⌊((⌈(if quantize18 (mn / price) < step then step else quantize18 (mn / price)) / step⌉ : ℚ)
      * step) / step⌋ : ℚ) * step

/-- Symbol name used by concrete scenario theorems. -/
def symBTC : String := "BTCUSDT"

/-- Symbol name used by concrete scenario theorems. -/
def symX : String := "X"

/-- Symbol name used by concrete scenario theorems. -/
def symAny : String := "ANY"

/-- Symbol name used by concrete scenario theorems. -/
def symS : String := "S"

/-! ### Lookup lemmas for one-symbol tables -/

lemma lookupLast_single (sym : String) (v : JVal) :
    lookupLast [(sym, v)] sym = some v := by
  simp [lookupLast]

lemma get_symbol_entry_single (sym : String) (v : JVal) :
    get_symbol_entry (JVal.obj [(sym, v)]) sym = .ok v := by
  simp [get_symbol_entry, lookupLast_single]

lemma stepFromEntry_stepEntry (step mn : ℚ) : stepFromEntry (stepEntry step mn) = step := by
  simp +decide [stepFromEntry, stepEntry, firstKeyVal, containsKey, getItem, lookupLast, pyFloat]

lemma minNotionalFromEntry_stepEntry (step mn : ℚ) :
    minNotionalFromEntry (stepEntry step mn) = mn := by
  simp +decide [minNotionalFromEntry, stepEntry, firstKeyVal, containsKey, getItem, lookupLast,
    pyFloat]

lemma get_step_size_stepTable (sym : String) (step mn : ℚ) :
    get_step_size (stepTable sym step mn) sym = .ok step := by
  simp [get_step_size, stepTable, get_symbol_entry_single, Except.map, stepFromEntry_stepEntry]

lemma get_min_notional_stepTable (sym : String) (step mn : ℚ) :
    get_min_notional (stepTable sym step mn) sym = .ok mn := by
  simp [get_min_notional, stepTable, get_symbol_entry_single, Except.map,
    minNotionalFromEntry_stepEntry]

lemma tickFromEntry_tickEntry (tick : ℚ) : tickFromEntry (tickEntry tick) = tick := by
  simp +decide [tickFromEntry, tickEntry, firstKeyVal, containsKey, getItem, lookupLast, pyFloat]

lemma get_tick_size_tickTable (sym : String) (tick : ℚ) :
    get_tick_size (tickTable sym tick) sym = .ok tick := by
  simp [get_tick_size, tickTable, get_symbol_entry_single, Except.map, tickFromEntry_tickEntry]

/-! ### Behaviour lemmas over a configured step size -/

lemma round_quantity_down_stepTable (sym : String) (step mn q : ℚ) :
    round_quantity_down (stepTable sym step mn) sym q
      = if step = 0 then q
        else if (truncQ (q / step) : ℚ) * step < 0 then 0
        else (truncQ (q / step) : ℚ) * step := by
  simp [round_quantity_down, get_step_size_stepTable]

lemma get_min_qty_stepTable_none (sym : String) (step mn : ℚ) :
    get_min_qty_by_min_notional (stepTable sym step mn) sym none = step := by
  simp [get_min_qty_by_min_notional, get_min_notional_stepTable, get_step_size_stepTable]

lemma get_min_qty_stepTable_nonpos (sym : String) (step mn p : ℚ) (hp : p ≤ 0) :
    get_min_qty_by_min_notional (stepTable sym step mn) sym (some p) = step := by
  simp [get_min_qty_by_min_notional, get_min_notional_stepTable, get_step_size_stepTable, hp]

lemma get_min_qty_stepTable_pos (sym : String) (step mn p : ℚ) (hp : 0 < p) :
    get_min_qty_by_min_notional (stepTable sym step mn) sym (some p)
      = if quantize18 (mn / p) < step then step else quantize18 (mn / p) := by
  simp [get_min_qty_by_min_notional, get_min_notional_stepTable, get_step_size_stepTable,
    not_le.mpr hp]

lemma get_trimmed_quantity_pos (sym : String) (step mn q : ℚ) (price : Option ℚ) (hq : 0 < q) :
    get_trimmed_quantity (stepTable sym step mn) sym (some q) price
      = if (1 : ℚ) / 10 ^ 12 ≤ round_quantity_down (stepTable sym step mn) sym q then
          round_quantity_down (stepTable sym step mn) sym q
        else if get_min_qty_by_min_notional (stepTable sym step mn) sym price < step then
          trimFinal (stepTable sym step mn) sym step step
        else if step = 0 then floor8 q
        else trimFinal (stepTable sym step mn) sym step
          ((⌈get_min_qty_by_min_notional (stepTable sym step mn) sym price / step⌉ : ℚ) * step) := by
  simp [get_trimmed_quantity, not_le.mpr hq, get_step_size_stepTable]

lemma get_trimmed_quantity_main (sym : String) (step mn q : ℚ) (price : Option ℚ) (hq : 0 < q)
    (hbig : (1 : ℚ) / 10 ^ 12 ≤ round_quantity_down (stepTable sym step mn) sym q) :
    get_trimmed_quantity (stepTable sym step mn) sym (some q) price
      = round_quantity_down (stepTable sym step mn) sym q := by
  rw [get_trimmed_quantity_pos sym step mn q price hq, if_pos hbig]

lemma truncQ_nonneg (x : ℚ) (hx : 0 ≤ x) : truncQ x = ⌊x⌋ := by
  rw [truncQ, if_pos hx]

lemma truncQ_one : truncQ (1 : ℚ) = 1 := by
  norm_num [truncQ]

lemma floor8_small (q : ℚ) (h0 : 0 ≤ q) (h : q < 1 / 10 ^ 12) : floor8 q = 0 := by
  have : ⌊q * 10 ^ 8⌋ = 0 := by
    rw [Int.floor_eq_zero_iff]
    constructor
    · positivity
    · nlinarith
  rw [floor8, this]
  norm_num

lemma round_down_grid (sym : String) (step mn : ℚ) (k : ℤ) (hstep : 0 < step) (hk : 0 ≤ k) :
    round_quantity_down (stepTable sym step mn) sym ((k : ℚ) * step) = (k : ℚ) * step := by
  have hne : step ≠ 0 := ne_of_gt hstep
  have hdiv : (k : ℚ) * step / step = (k : ℚ) := mul_div_cancel_right₀ _ hne
  have htr : truncQ ((k : ℚ) * step / step) = k := by
    rw [hdiv, truncQ_nonneg _ (by exact_mod_cast hk), Int.floor_intCast]
  have hnn : 0 ≤ (k : ℚ) * step := mul_nonneg (by exact_mod_cast hk) (le_of_lt hstep)
  rw [round_quantity_down_stepTable, if_neg hne, htr, if_neg (not_lt.mpr hnn)]

lemma round_down_self (sym : String) (step mn : ℚ) (h0 : step ≠ 0) :
    round_quantity_down (stepTable sym step mn) sym step
      = if step < 0 then 0 else step := by
  rw [round_quantity_down_stepTable, if_neg h0, div_self h0, truncQ_one]
  norm_num

lemma trimFinal_grid (sym : String) (step mn : ℚ) (k : ℤ) (hstep : 0 < step) (hk : 1 ≤ k) :
    trimFinal (stepTable sym step mn) sym step ((k : ℚ) * step) = (k : ℚ) * step := by
  have hk0 : (0 : ℤ) ≤ k := le_trans (by norm_num) hk
  have hpos : 0 < (k : ℚ) * step := by
    have : (1 : ℚ) ≤ (k : ℚ) := by exact_mod_cast hk
    nlinarith
  rw [trimFinal, round_down_grid sym step mn k hstep hk0, if_neg (not_le.mpr hpos)]

lemma trimFinal_self (sym : String) (step mn : ℚ) (h0 : step ≠ 0) :
    trimFinal (stepTable sym step mn) sym step step = step := by
  rcases lt_or_gt_of_ne h0 with hlt | hgt
  · rw [trimFinal, round_down_self sym step mn h0, if_pos hlt, if_pos le_rfl]
  · rw [trimFinal, round_down_self sym step mn h0, if_neg (not_lt.mpr (le_of_lt hgt)),
      if_neg (not_le.mpr hgt)]

/-- Shared lemma: a positive quantity whose step-floor is below the 1e-12
tolerance, trimmed with no usable price, yields exactly one configured step
(including the degenerate configurations step = 0, where the ZeroDivisionError
fallback `floor(qty*1e8)/1e8` returns 0 = step, and step < 0). -/
lemma trim_below_step_no_price (sym : String) (step mn q : ℚ) (price : Option ℚ)
    (hq : 0 < q)
    (hsmall : round_quantity_down (stepTable sym step mn) sym q < 1 / 10 ^ 12)
    (hprice : ∀ p, price = some p → p ≤ 0) :
    get_trimmed_quantity (stepTable sym step mn) sym (some q) price = step := by
  have hmq : get_min_qty_by_min_notional (stepTable sym step mn) sym price = step := by
    cases price with
    | none => exact get_min_qty_stepTable_none sym step mn
    | some p => exact get_min_qty_stepTable_nonpos sym step mn p (hprice p rfl)
  rw [get_trimmed_quantity_pos sym step mn q price hq, if_neg (not_le.mpr hsmall), hmq,
    if_neg (lt_irrefl step)]
  by_cases h0 : step = 0
  · rw [if_pos h0]
    have hq12 : q < 1 / 10 ^ 12 := by
      rw [round_quantity_down_stepTable, if_pos h0] at hsmall
      exact hsmall
    rw [floor8_small q (le_of_lt hq) hq12, h0]
  · rw [if_neg h0, div_self h0, Int.ceil_one, Int.cast_one, one_mul, trimFinal_self sym step mn h0]

/-! ### Claim theorems -/

/-- C3 counterexample: when the loaded table is a well-formed JSON value that
is not a mapping (here an empty array), the public lookup `get_tick_size`
raises AttributeError to the caller (`self.data.get` on a list), contradicting
the claim that all five operations never raise for any value a well-formed
JSON document may parse to. -/
theorem C3_counterexample :
    get_tick_size (JVal.arr []) symAny = .error .attributeError := rfl

/-- C3 (amended): when the loaded table is a mapping (any JSON object), the
bare lookups get_tick_size, get_min_notional and get_step_size never raise and
always return a numeric value.  (get_trimmed_quantity and get_trimmed_price
catch every exception internally and are total for any table, which the
embedding reflects by giving them a plain ℚ result type.) -/
theorem C3_lookups_total_on_mapping (fields : List (String × JVal)) (sym : String) :
    (∃ q, get_tick_size (JVal.obj fields) sym = .ok q)
    ∧ (∃ q, get_step_size (JVal.obj fields) sym = .ok q)
    ∧ (∃ q, get_min_notional (JVal.obj fields) sym = .ok q) :=
  ⟨⟨_, rfl⟩, ⟨_, rfl⟩, ⟨_, rfl⟩⟩

/-- C6: a symbol absent from a loaded mapping table gets exactly the global
defaults: tick 1e-8, step 1e-8, min notional 1e-6, and none of the lookups
fails. -/
theorem C6_unknown_symbol_defaults (fields : List (String × JVal)) (sym : String)
    (habs : lookupLast fields sym = none) :
    get_tick_size (JVal.obj fields) sym = .ok (1 / 10 ^ 8)
    ∧ get_step_size (JVal.obj fields) sym = .ok (1 / 10 ^ 8)
    ∧ get_min_notional (JVal.obj fields) sym = .ok (1 / 10 ^ 6) := by
  have he : get_symbol_entry (JVal.obj fields) sym = .ok (JVal.obj []) := by
    simp [get_symbol_entry, habs]
  refine ⟨?_, ?_, ?_⟩ <;>
    simp [get_tick_size, get_step_size, get_min_notional, he, Except.map] <;>
    norm_num [tickFromEntry, stepFromEntry, minNotionalFromEntry, firstKeyVal, containsKey,
      DEFAULT_TICK_SIZE, DEFAULT_STEP_SIZE, DEFAULT_MIN_NOTIONAL]

/-- C6 witness: the empty table (missing metadata source) with an arbitrary
symbol returns exactly the three defaults. -/
theorem C6_witness :
    get_tick_size (JVal.obj []) symAny = .ok (1 / 10 ^ 8)
    ∧ get_step_size (JVal.obj []) symAny = .ok (1 / 10 ^ 8)
    ∧ get_min_notional (JVal.obj []) symAny = .ok (1 / 10 ^ 6) :=
  C6_unknown_symbol_defaults [] symAny rfl

/-- C7 (code bug): for an entry that encodes price precision only as the
integer decimal-places count pricePrecision = 3, get_tick_size returns 3
directly (the first alias loop treats pricePrecision as a direct increment),
not 10^-3 = 1/1000 as the claim (and the source's own dead second loop,
commented "pricePrecision as int") intends. -/
theorem C7_pricePrecision_returned_directly :
    get_tick_size (JVal.obj [(symS, JVal.obj [("pricePrecision", JVal.num 3)])]) symS = .ok 3
    ∧ qpow10 (-3) = 1 / 1000 ∧ (3 : ℚ) ≠ 1 / 1000 := by
  refine ⟨?_, by norm_num [qpow10, show Int.toNat 3 = 3 from rfl], by norm_num⟩
  norm_num +decide [get_tick_size, get_symbol_entry, lookupLast, symS, tickFromEntry, firstKeyVal,
    containsKey, getItem, pyFloat, Except.map]

/-- C8: a positive quantity whose step-floor falls below the 1e-12 tolerance,
trimmed with the price omitted or ≤ 0, yields exactly one configured
step_size. -/
theorem C8_no_price_one_step (sym : String) (step mn qty : ℚ) (price : Option ℚ)
    (hq : 0 < qty)
    (hfloor : round_quantity_down (stepTable sym step mn) sym qty < 1 / 10 ^ 12)
    (hprice : ∀ p, price = some p → p ≤ 0) :
    get_trimmed_quantity (stepTable sym step mn) sym (some qty) price = step :=
  trim_below_step_no_price sym step mn qty price hq hfloor hprice

/-- C8 witness (spec scenario F): qty 0.0001 with no price and step 0.001
returns 0.001. -/
theorem C8_witness :
    get_trimmed_quantity (stepTable symX (1 / 1000) (1 / 10 ^ 6)) symX
      (some (1 / 10000)) none = 1 / 1000 :=
  C8_no_price_one_step symX (1 / 1000) (1 / 10 ^ 6) (1 / 10000) none (by norm_num)
    (by rw [round_quantity_down_stepTable]; norm_num [truncQ])
    (fun p h => nomatch h)

/-- C9: for every loaded table, symbol and price, get_trimmed_quantity
returns 0 whenever the quantity argument is null or ≤ 0. -/
theorem C9_nonpositive_qty_returns_zero (data : JVal) (sym : String) (price qty : Option ℚ)
    (h : qty = none ∨ ∃ q, qty = some q ∧ q ≤ 0) :
    get_trimmed_quantity data sym qty price = 0 := by
  rcases h with h | ⟨q, rfl, hq⟩
  · rw [h]; rfl
  · simp [get_trimmed_quantity, hq]

/-- C9 witness (spec scenario E): trim_quantity("X", -5) returns 0. -/
theorem C9_witness :
    get_trimmed_quantity (stepTable symX (1 / 1000) 10) symX (some (-5)) none = 0 :=
  C9_nonpositive_qty_returns_zero (stepTable symX (1 / 1000) 10) symX none (some (-5))
    (Or.inr ⟨-5, rfl, by norm_num⟩)

/-- C10: with a configured step size of exactly 0 and a quantity of at least
1e-12, get_trimmed_quantity returns the quantity unchanged for any price. -/
theorem C10_zero_step_returns_qty (sym : String) (mn qty : ℚ) (price : Option ℚ)
    (hq : 1 / 10 ^ 12 ≤ qty) :
    get_trimmed_quantity (stepTable sym 0 mn) sym (some qty) price = qty := by
  have hq0 : 0 < qty := lt_of_lt_of_le (by norm_num) hq
  have hr : round_quantity_down (stepTable sym 0 mn) sym qty = qty := by
    rw [round_quantity_down_stepTable, if_pos rfl]
  rw [get_trimmed_quantity_main sym 0 mn qty price hq0 (by rw [hr]; exact hq), hr]

/-- C10 witness: step 0, qty 5, price 100 returns 5 unchanged. -/
theorem C10_witness :
    get_trimmed_quantity (stepTable symX 0 (1 / 10 ^ 6)) symX (some 5) (some 100) = 5 :=
  C10_zero_step_returns_qty symX (1 / 10 ^ 6) 5 (some 100) (by norm_num)

/-- C1 counterexample: with a configured step size of 0 and min notional 10,
a positive qty (1e-13) whose step-floor is below 1e-12 and a positive price
(50000) make get_trimmed_quantity return 0 — `math.ceil(min_qty / step)`
raises ZeroDivisionError and the fallback floors the tiny qty to 0 — so the
claim's "does not return zero" fails as stated. -/
theorem C1_counterexample :
    0 < ((1 : ℚ) / 10 ^ 13) ∧ 0 < (50000 : ℚ)
    ∧ round_quantity_down (stepTable symBTC 0 10) symBTC (1 / 10 ^ 13) < 1 / 10 ^ 12
    ∧ get_trimmed_quantity (stepTable symBTC 0 10) symBTC (some (1 / 10 ^ 13)) (some 50000)
        = 0 := by
  refine ⟨by norm_num, by norm_num, ?_, ?_⟩
  · rw [round_quantity_down_stepTable]
    norm_num
  · norm_num +decide [get_trimmed_quantity, round_quantity_down, get_step_size, get_min_notional,
      get_min_qty_by_min_notional, trimFinal, get_symbol_entry, stepTable, stepEntry, lookupLast,
      symBTC, stepFromEntry, minNotionalFromEntry, firstKeyVal, containsKey, getItem, pyFloat,
      Except.map, truncQ, quantize18, halfUpUnit, floor8]

/-- C1 (amended: additionally requires a positive configured step size, since
step = 0 makes the snap-to-grid division raise and the fallback return 0):
for a positive qty whose step-floor is below 1e-12 and a positive price,
get_trimmed_quantity returns min_notional/price rounded half-up to 18 decimal
places, clamped up to at least one step, snapped up to the next step multiple,
then floor-normalized to the grid — and in particular not zero. -/
theorem C1_min_notional_substitution (sym : String) (step mn qty price : ℚ)
    (hstep : 0 < step) (hq : 0 < qty) (hp : 0 < price)
    (hfloor : round_quantity_down (stepTable sym step mn) sym qty < 1 / 10 ^ 12) :
    get_trimmed_quantity (stepTable sym step mn) sym (some qty) (some price)
      = specMinViableQty step mn price
    ∧ get_trimmed_quantity (stepTable sym step mn) sym (some qty) (some price) ≠ 0 := by
  have hne : step ≠ 0 := ne_of_gt hstep
  have hm2ge : step ≤ (if quantize18 (mn / price) < step then step else quantize18 (mn / price)) := by
    split
    · exact le_rfl
    · next h => exact le_of_not_lt h
  have hpos2 : 0 < (if quantize18 (mn / price) < step then step else quantize18 (mn / price)) / step :=
    div_pos (lt_of_lt_of_le hstep hm2ge) hstep
  have hk1 : 1 ≤ ⌈(if quantize18 (mn / price) < step then step else quantize18 (mn / price)) / step⌉ := by
    have h := Int.ceil_pos.mpr hpos2
    omega
  have heq : get_trimmed_quantity (stepTable sym step mn) sym (some qty) (some price)
      = ((⌈(if quantize18 (mn / price) < step then step
            else quantize18 (mn / price)) / step⌉ : ℤ) : ℚ) * step := by
    rw [get_trimmed_quantity_pos sym step mn qty (some price) hq, if_neg (not_le.mpr hfloor),
      get_min_qty_stepTable_pos sym step mn price hp, if_neg (not_lt.mpr hm2ge), if_neg hne,
      trimFinal_grid sym step mn _ hstep hk1]
  have hspec : specMinViableQty step mn price
      = ((⌈(if quantize18 (mn / price) < step then step
            else quantize18 (mn / price)) / step⌉ : ℤ) : ℚ) * step := by
    simp only [specMinViableQty]
    rw [mul_div_cancel_right₀ _ hne, Int.floor_intCast]
  have hone : (1 : ℚ) ≤ ((⌈(if quantize18 (mn / price) < step then step
      else quantize18 (mn / price)) / step⌉ : ℤ) : ℚ) := by exact_mod_cast hk1
  refine ⟨by rw [heq, hspec], ?_⟩
  rw [heq]
  exact ne_of_gt (by nlinarith)

/-- C1 witness (spec scenario A): step 0.001, min notional 10, qty 0.0005,
price 50000: the substituted quantity equals the spec formula and works out
to 0.001. -/
theorem C1_witness :
    get_trimmed_quantity (stepTable symBTC (1 / 1000) 10) symBTC (some (1 / 2000)) (some 50000)
      = specMinViableQty (1 / 1000) 10 50000
    ∧ get_trimmed_quantity (stepTable symBTC (1 / 1000) 10) symBTC (some (1 / 2000)) (some 50000)
        ≠ 0
    ∧ specMinViableQty (1 / 1000) 10 50000 = 1 / 1000 := by
  have h := C1_min_notional_substitution symBTC (1 / 1000) 10 (1 / 2000) 50000 (by norm_num)
    (by norm_num) (by norm_num) (by rw [round_quantity_down_stepTable]; norm_num [truncQ])
  exact ⟨h.1, h.2, by norm_num [specMinViableQty, quantize18, halfUpUnit]⟩

/-- C2 counterexample: with tick 0.01 and the negative price -0.015,
get_trimmed_price returns -0.01 (decimal divide-integer truncates toward
zero), which is greater than the price — the claimed "largest multiple of the
tick ≤ price, for negative prices as well" fails. -/
theorem C2_counterexample :
    0 < ((1 : ℚ) / 100)
    ∧ ¬ (get_trimmed_price (tickTable symBTC (1 / 100)) symBTC (some (-(3 / 200)))
          ≤ -(3 / 200)) := by
  refine ⟨by norm_num, ?_⟩
  have h : get_trimmed_price (tickTable symBTC (1 / 100)) symBTC (some (-(3 / 200)))
      = -(1 / 100) := by
    norm_num +decide [get_trimmed_price, round_price, get_tick_size, get_symbol_entry, tickTable,
      tickEntry, lookupLast, symBTC, tickFromEntry, firstKeyVal, containsKey, getItem, pyFloat,
      Except.map, truncQ]
  rw [h]
  norm_num

/-- C2 (amended: restricted to nonnegative prices; for a negative price the
decimal divide-integer truncates toward zero, so the result is the smallest
tick multiple ≥ price instead): with a positive configured tick,
get_trimmed_price of a nonnegative price is the largest multiple of the tick
that is ≤ the price. -/
theorem C2_price_trim_grid (sym : String) (tick price : ℚ) (ht : 0 < tick) (hp : 0 ≤ price) :
    get_trimmed_price (tickTable sym tick) sym (some price) = (⌊price / tick⌋ : ℚ) * tick
    ∧ get_trimmed_price (tickTable sym tick) sym (some price) ≤ price
    ∧ ∀ k : ℤ, (k : ℚ) * tick ≤ price →
        (k : ℚ) * tick ≤ get_trimmed_price (tickTable sym tick) sym (some price) := by
  have hne : tick ≠ 0 := ne_of_gt ht
  have h1 : get_trimmed_price (tickTable sym tick) sym (some price)
      = (⌊price / tick⌋ : ℚ) * tick := by
    simp only [get_trimmed_price, round_price, get_tick_size_tickTable, if_neg hne]
    rw [truncQ_nonneg _ (div_nonneg hp (le_of_lt ht))]
  refine ⟨h1, ?_, ?_⟩
  · rw [h1]
    calc (⌊price / tick⌋ : ℚ) * tick
        ≤ price / tick * tick := mul_le_mul_of_nonneg_right (Int.floor_le _) (le_of_lt ht)
      _ = price := div_mul_cancel₀ _ hne
  · intro k hk
    rw [h1]
    have : k ≤ ⌊price / tick⌋ := Int.le_floor.mpr ((le_div_iff₀ ht).mpr hk)
    exact mul_le_mul_of_nonneg_right (by exact_mod_cast this) (le_of_lt ht)

/-- C2 witness (spec scenario C): tick 0.01, price 50123.456 trims to
50123.45, the largest tick multiple below the price. -/
theorem C2_witness :
    get_trimmed_price (tickTable symBTC (1 / 100)) symBTC (some (50123456 / 1000))
      = (⌊(50123456 / 1000 : ℚ) / (1 / 100)⌋ : ℚ) * (1 / 100)
    ∧ get_trimmed_price (tickTable symBTC (1 / 100)) symBTC (some (50123456 / 1000))
        ≤ 50123456 / 1000
    ∧ get_trimmed_price (tickTable symBTC (1 / 100)) symBTC (some (50123456 / 1000))
        = 1002469 / 20 := by
  have h := C2_price_trim_grid symBTC (1 / 100) (50123456 / 1000) (by norm_num) (by norm_num)
  refine ⟨h.1, h.2.1, ?_⟩
  rw [h.1]
  norm_num

/-- C4 counterexample: with a configured (pathological) negative step size
-0.001, trimming 0.0001 with no price yields -0.001, and trimming that result
again yields 0 — idempotence fails for an arbitrary configured step size. -/
theorem C4_counterexample :
    get_trimmed_quantity (stepTable symX (-(1 / 1000)) (1 / 10 ^ 6)) symX
        (some (get_trimmed_quantity (stepTable symX (-(1 / 1000)) (1 / 10 ^ 6)) symX
          (some (1 / 10000)) none)) none
      ≠ get_trimmed_quantity (stepTable symX (-(1 / 1000)) (1 / 10 ^ 6)) symX
          (some (1 / 10000)) none := by
  have h1 : get_trimmed_quantity (stepTable symX (-(1 / 1000)) (1 / 10 ^ 6)) symX
      (some (1 / 10000)) none = -(1 / 1000) := by
    norm_num +decide [get_trimmed_quantity, round_quantity_down, get_step_size, get_min_notional,
      get_min_qty_by_min_notional, trimFinal, get_symbol_entry, stepTable, stepEntry, lookupLast,
      symX, stepFromEntry, minNotionalFromEntry, firstKeyVal, containsKey, getItem, pyFloat,
      Except.map, truncQ, quantize18, halfUpUnit, floor8]
  rw [h1]
  have h2 : get_trimmed_quantity (stepTable symX (-(1 / 1000)) (1 / 10 ^ 6)) symX
      (some (-(1 / 1000))) none = 0 := by
    norm_num [get_trimmed_quantity]
  rw [h2]
  norm_num

/-- C4 (amended: restricted to nonnegative configured step sizes; a negative
step breaks idempotence because the substituted quantity is negative and is
rejected as non-positive input on the second pass): with the price omitted,
get_trimmed_quantity is idempotent for every symbol, quantity, nonnegative
configured step size and any configured min notional. -/
theorem C4_trim_quantity_idempotent (sym : String) (step mn : ℚ) (qty : Option ℚ)
    (hstep : 0 ≤ step) :
    get_trimmed_quantity (stepTable sym step mn) sym
        (some (get_trimmed_quantity (stepTable sym step mn) sym qty none)) none
      = get_trimmed_quantity (stepTable sym step mn) sym qty none := by
  cases qty with
  | none =>
    have h0 : get_trimmed_quantity (stepTable sym step mn) sym none none = 0 := rfl
    rw [h0]
    simp [get_trimmed_quantity]
  | some q =>
    rcases le_or_lt q 0 with hq | hq
    · have h1 : get_trimmed_quantity (stepTable sym step mn) sym (some q) none = 0 := by
        simp [get_trimmed_quantity, hq]
      rw [h1]
      simp [get_trimmed_quantity]
    · rcases eq_or_lt_of_le hstep with h0 | hpos
      · obtain rfl : step = 0 := h0.symm
        have hr : round_quantity_down (stepTable sym 0 mn) sym q = q := by
          rw [round_quantity_down_stepTable, if_pos rfl]
        rcases le_or_lt ((1 : ℚ) / 10 ^ 12) q with hbig | hsmall
        · have h1 : get_trimmed_quantity (stepTable sym 0 mn) sym (some q) none = q := by
            rw [get_trimmed_quantity_main sym 0 mn q none hq (by rw [hr]; exact hbig), hr]
          rw [h1]
          exact h1
        · have h1 : get_trimmed_quantity (stepTable sym 0 mn) sym (some q) none = 0 :=
            trim_below_step_no_price sym 0 mn q none hq (by rw [hr]; exact hsmall)
              (fun p h => nomatch h)
          rw [h1]
          simp [get_trimmed_quantity]
      · have hne : step ≠ 0 := ne_of_gt hpos
        have hfl : 0 ≤ ⌊q / step⌋ := Int.floor_nonneg.mpr (le_of_lt (div_pos hq hpos))
        have hr : round_quantity_down (stepTable sym step mn) sym q
            = (⌊q / step⌋ : ℚ) * step := by
          rw [round_quantity_down_stepTable, if_neg hne,
            truncQ_nonneg _ (le_of_lt (div_pos hq hpos)),
            if_neg (not_lt.mpr (mul_nonneg (by exact_mod_cast hfl) (le_of_lt hpos)))]
        rcases le_or_lt ((1 : ℚ) / 10 ^ 12) ((⌊q / step⌋ : ℚ) * step) with hbig | hsmall
        · have h1 : get_trimmed_quantity (stepTable sym step mn) sym (some q) none
              = (⌊q / step⌋ : ℚ) * step := by
            rw [get_trimmed_quantity_main sym step mn q none hq (by rw [hr]; exact hbig), hr]
          rw [h1]
          have hposval : 0 < (⌊q / step⌋ : ℚ) * step := lt_of_lt_of_le (by norm_num) hbig
          have hr2 : round_quantity_down (stepTable sym step mn) sym ((⌊q / step⌋ : ℚ) * step)
              = (⌊q / step⌋ : ℚ) * step := round_down_grid sym step mn _ hpos hfl
          rw [get_trimmed_quantity_main sym step mn _ none hposval (by rw [hr2]; exact hbig), hr2]
        · have h1 : get_trimmed_quantity (stepTable sym step mn) sym (some q) none = step :=
            trim_below_step_no_price sym step mn q none hq (by rw [hr]; exact hsmall)
              (fun p h => nomatch h)
          rw [h1]
          have hrs : round_quantity_down (stepTable sym step mn) sym step = step := by
            rw [round_down_self sym step mn hne, if_neg (not_lt.mpr (le_of_lt hpos))]
          rcases le_or_lt ((1 : ℚ) / 10 ^ 12) step with hb2 | hs2
          · rw [get_trimmed_quantity_main sym step mn step none hpos (by rw [hrs]; exact hb2), hrs]
          · exact trim_below_step_no_price sym step mn step none hpos (by rw [hrs]; exact hs2)
              (fun p h => nomatch h)

/-- C4 witness: step 0.001, min notional 10, qty 0.0035 — trimming the trimmed
quantity changes nothing. -/
theorem C4_witness :
    get_trimmed_quantity (stepTable symBTC (1 / 1000) 10) symBTC
        (some (get_trimmed_quantity (stepTable symBTC (1 / 1000) 10) symBTC
          (some (7 / 2000)) none)) none
      = get_trimmed_quantity (stepTable symBTC (1 / 1000) 10) symBTC (some (7 / 2000)) none :=
  C4_trim_quantity_idempotent symBTC (1 / 1000) 10 (some (7 / 2000)) (by norm_num)

/-- C5 counterexample: with a configured (pathological) negative step size
-0.001 and quantities -0.0005 ≤ 0.0001, both exceeding one step, the trimmed
quantities are 0 and -0.001 respectively — monotonicity fails as stated. -/
theorem C5_counterexample :
    (-(1 / 1000) : ℚ) < -(1 / 2000) ∧ (-(1 / 1000) : ℚ) < 1 / 10000
    ∧ (-(1 / 2000) : ℚ) ≤ 1 / 10000
    ∧ ¬ (get_trimmed_quantity (stepTable symX (-(1 / 1000)) (1 / 10 ^ 6)) symX
            (some (-(1 / 2000))) none
          ≤ get_trimmed_quantity (stepTable symX (-(1 / 1000)) (1 / 10 ^ 6)) symX
            (some (1 / 10000)) none) := by
  refine ⟨by norm_num, by norm_num, by norm_num, ?_⟩
  have hA : get_trimmed_quantity (stepTable symX (-(1 / 1000)) (1 / 10 ^ 6)) symX
      (some (-(1 / 2000))) none = 0 := by
    norm_num [get_trimmed_quantity]
  have hB : get_trimmed_quantity (stepTable symX (-(1 / 1000)) (1 / 10 ^ 6)) symX
      (some (1 / 10000)) none = -(1 / 1000) := by
    norm_num +decide [get_trimmed_quantity, round_quantity_down, get_step_size, get_min_notional,
      get_min_qty_by_min_notional, trimFinal, get_symbol_entry, stepTable, stepEntry, lookupLast,
      symX, stepFromEntry, minNotionalFromEntry, firstKeyVal, containsKey, getItem, pyFloat,
      Except.map, truncQ, quantize18, halfUpUnit, floor8]
  rw [hA, hB]
  norm_num

/-- C5 (amended: restricted to nonnegative configured step sizes; a negative
step breaks order preservation because sub-step positive quantities are
replaced by the negative step while non-positive ones yield 0): for a fixed
symbol with nonnegative configured step size, get_trimmed_quantity with no
price is monotone on quantities that each exceed one step. -/
theorem C5_trim_quantity_monotone (sym : String) (step mn q1 q2 : ℚ) (hstep : 0 ≤ step)
    (h1 : step < q1) (h2 : step < q2) (h12 : q1 ≤ q2) :
    get_trimmed_quantity (stepTable sym step mn) sym (some q1) none
      ≤ get_trimmed_quantity (stepTable sym step mn) sym (some q2) none := by
  rcases eq_or_lt_of_le hstep with h0 | hpos
  · obtain rfl : step = 0 := h0.symm
    have hq1 : 0 < q1 := h1
    have hq2 : 0 < q2 := h2
    have hr : ∀ q : ℚ, round_quantity_down (stepTable sym 0 mn) sym q = q := fun q => by
      rw [round_quantity_down_stepTable, if_pos rfl]
    rcases le_or_lt ((1 : ℚ) / 10 ^ 12) q1 with b1 | s1
    · have b2 : (1 : ℚ) / 10 ^ 12 ≤ q2 := le_trans b1 h12
      rw [get_trimmed_quantity_main sym 0 mn q1 none hq1 (by rw [hr]; exact b1), hr,
        get_trimmed_quantity_main sym 0 mn q2 none hq2 (by rw [hr]; exact b2), hr]
      exact h12
    · have hT1 : get_trimmed_quantity (stepTable sym 0 mn) sym (some q1) none = 0 :=
        trim_below_step_no_price sym 0 mn q1 none hq1 (by rw [hr]; exact s1)
          (fun p h => nomatch h)
      rw [hT1]
      rcases le_or_lt ((1 : ℚ) / 10 ^ 12) q2 with b2 | s2
      · rw [get_trimmed_quantity_main sym 0 mn q2 none hq2 (by rw [hr]; exact b2), hr]
        exact le_of_lt hq2
      · rw [trim_below_step_no_price sym 0 mn q2 none hq2 (by rw [hr]; exact s2)
          (fun p h => nomatch h)]
  · have hne : step ≠ 0 := ne_of_gt hpos
    have hq1 : 0 < q1 := lt_trans hpos h1
    have hq2 : 0 < q2 := lt_trans hpos h2
    have hfl1 : 1 ≤ ⌊q1 / step⌋ := by
      rw [Int.le_floor]
      exact_mod_cast (one_le_div hpos).mpr (le_of_lt h1)
    have hfl2 : 1 ≤ ⌊q2 / step⌋ := by
      rw [Int.le_floor]
      exact_mod_cast (one_le_div hpos).mpr (le_of_lt h2)
    have hr1 : round_quantity_down (stepTable sym step mn) sym q1
        = (⌊q1 / step⌋ : ℚ) * step := by
      rw [round_quantity_down_stepTable, if_neg hne,
        truncQ_nonneg _ (le_of_lt (div_pos hq1 hpos))]
      rw [if_neg (not_lt.mpr (mul_nonneg (by exact_mod_cast le_trans zero_le_one hfl1)
        (le_of_lt hpos)))]
    have hr2 : round_quantity_down (stepTable sym step mn) sym q2
        = (⌊q2 / step⌋ : ℚ) * step := by
      rw [round_quantity_down_stepTable, if_neg hne,
        truncQ_nonneg _ (le_of_lt (div_pos hq2 hpos))]
      rw [if_neg (not_lt.mpr (mul_nonneg (by exact_mod_cast le_trans zero_le_one hfl2)
        (le_of_lt hpos)))]
    have hmono : (⌊q1 / step⌋ : ℚ) * step ≤ (⌊q2 / step⌋ : ℚ) * step := by
      apply mul_le_mul_of_nonneg_right _ (le_of_lt hpos)
      exact_mod_cast Int.floor_mono ((div_le_div_iff_of_pos_right hpos).mpr h12)
    rcases le_or_lt ((1 : ℚ) / 10 ^ 12) ((⌊q1 / step⌋ : ℚ) * step) with b1 | s1
    · have b2 : (1 : ℚ) / 10 ^ 12 ≤ (⌊q2 / step⌋ : ℚ) * step := le_trans b1 hmono
      rw [get_trimmed_quantity_main sym step mn q1 none hq1 (by rw [hr1]; exact b1), hr1,
        get_trimmed_quantity_main sym step mn q2 none hq2 (by rw [hr2]; exact b2), hr2]
      exact hmono
    · have hT1 : get_trimmed_quantity (stepTable sym step mn) sym (some q1) none = step :=
        trim_below_step_no_price sym step mn q1 none hq1 (by rw [hr1]; exact s1)
          (fun p h => nomatch h)
      rw [hT1]
      rcases le_or_lt ((1 : ℚ) / 10 ^ 12) ((⌊q2 / step⌋ : ℚ) * step) with b2 | s2
      · rw [get_trimmed_quantity_main sym step mn q2 none hq2 (by rw [hr2]; exact b2), hr2]
        exact le_mul_of_one_le_left (le_of_lt hpos) (by exact_mod_cast hfl2)
      · rw [trim_below_step_no_price sym step mn q2 none hq2 (by rw [hr2]; exact s2)
          (fun p h => nomatch h)]

/-- C5 witness: step 0.001, quantities 0.0015 ≤ 0.0035 both above one step —
the trimmed quantities stay ordered. -/
theorem C5_witness :
    get_trimmed_quantity (stepTable symBTC (1 / 1000) 10) symBTC (some (3 / 2000)) none
      ≤ get_trimmed_quantity (stepTable symBTC (1 / 1000) 10) symBTC (some (7 / 2000)) none :=
  C5_trim_quantity_monotone symBTC (1 / 1000) 10 (3 / 2000) (7 / 2000) (by norm_num)
    (by norm_num) (by norm_num) (by norm_num)
